import Mathlib

/-!
# go-hrms: the employee HTTP handlers of `main.go`

A shallow embedding of the five route handlers registered in `main` together
with the pieces of the HTTP framework and of the document-database driver they
call.  A handler is a function from the request context and the database state
to a response and the next database state; every call to the collection is
recorded in a log, and the outcome of each call that the handler cannot
control (deadline exceeded, connection lost) is read from a schedule.  A handler
that ends in `return c.Status(..).JSON(..)` returns the encoder's error when the
payload does not encode; the response is then the one of the framework's default
error handler.
-/

namespace Hrms

/-! ## Data model -/

/-- Go `float64`, held as its IEEE-754 binary64 bit pattern (a number below `2^64`). -/
structure Float64 where
  bits : Nat
deriving DecidableEq, Repr

/-- Go `x != 0` on a `float64`: false exactly for `+0` and `-0` (sign bit ignored),
true for every other value, NaN included. -/
def Float64.neZero (x : Float64) : Bool := x.bits % 2 ^ 63 != 0

/-- The zero value of `float64`. -/
def Float64.zero : Float64 := ⟨0⟩

/-- What `encoding/json` refuses in a `float64`: `none` for a finite value; for a value whose
exponent bits are all ones, the text `strconv.FormatFloat` gives it (`NaN`, `+Inf`, `-Inf`),
which the encoder puts in its `UnsupportedValueError`. -/
def Float64.unsupported (x : Float64) : Option String :=
  if (x.bits / 2 ^ 52) % 2 ^ 11 = 2047 then
    some (if x.bits % 2 ^ 52 ≠ 0 then "NaN"
          else if (x.bits / 2 ^ 63) % 2 = 1 then "-Inf" else "+Inf")
  else none

/-- The `Employee` struct of `main.go`. -/
structure Employee where
  Id : String
  Name : String
  Age : Float64
  Salary : Float64
deriving DecidableEq, Repr

/-- The value of `var employee Employee`: every field at its zero value. -/
def Employee.zero : Employee := ⟨"", "", Float64.zero, Float64.zero⟩

/-- The value `json.Marshal` refuses in an `Employee`, if any: the fields are encoded in the
order `id`, `name`, `age`, `salary`, strings always encode, so it is the age when that is
not finite and the salary otherwise. -/
def Employee.jsonError (e : Employee) : Option String :=
  match e.Age.unsupported with
  | some s => some s
  | none => e.Salary.unsupported

/-! ## Identifiers (`primitive.ObjectID`) -/

/-- A driver `ObjectID`: twelve bytes, held as the big-endian number they spell. -/
structure ObjectID where
  val : Nat
deriving DecidableEq, Repr

/-- Value of one hexadecimal digit; both letter cases are accepted, as by `encoding/hex`. -/
def hexVal (c : Char) : Option Nat :=
  let n := c.toNat
  if 48 ≤ n ∧ n ≤ 57 then some (n - 48)
  else if 97 ≤ n ∧ n ≤ 102 then some (n - 87)
  else if 65 ≤ n ∧ n ≤ 70 then some (n - 55)
  else none

/-- Values of a run of hexadecimal digits, or `none` when one of them is not a digit. -/
def hexVals : List Char → Option (List Nat)
  | [] => some []
  | c :: cs =>
    match hexVal c, hexVals cs with
    | some d, some ds => some (d :: ds)
    | _, _ => none

/-- `primitive.ObjectIDFromHex`: succeeds exactly on 24 hexadecimal digits. -/
def ObjectIDFromHex (s : String) : Option ObjectID :=
  match hexVals s.data with
  | some ds => if ds.length = 24 then some ⟨ds.foldl (fun acc d => acc * 16 + d) 0⟩ else none
  | none => none

/-- The lower-case hexadecimal digit of a value below sixteen. -/
def hexChar (d : Nat) : Char :=
  if d < 10 then Char.ofNat (48 + d) else Char.ofNat (87 + d)

/-- The last `k` hexadecimal digits of `n`, most significant first. -/
def hexDigits : Nat → Nat → List Char
  | 0, _ => []
  | k + 1, n => hexDigits k (n / 16) ++ [hexChar (n % 16)]

/-- `ObjectID.Hex`: the 24 lower-case hexadecimal digits of the identifier. -/
def ObjectID.Hex (o : ObjectID) : String := String.mk (hexDigits 24 o.val)

/-! ## Stored documents -/

/-- The BSON value under `_id`: an `ObjectID` the driver generated, or the string
a non-empty `Employee.Id` marshals to (`bson:"_id,omitempty"` on a `string` field). -/
inductive BsonId where
  | oid (o : ObjectID)
  | str (s : String)
deriving DecidableEq, Repr

/-- A document of the `employee` collection. -/
structure Document where
  _id : BsonId
  name : String
  age : Float64
  salary : Float64
deriving DecidableEq, Repr

/-- Decoding a document into an `Employee`: an `ObjectID` under `_id` is read into the
string field as its hex form, a string is read as it is. -/
def Document.decode (d : Document) : Employee :=
  { Id := match d._id with
          | .oid o => o.Hex
          | .str s => s
    Name := d.name
    Age := d.age
    Salary := d.salary }

/-- The `$set` document built by the update handler. -/
structure Update where
  name : String
  age : Float64
  salary : Float64
deriving DecidableEq, Repr

/-- One call to the collection. -/
inductive Op where
  | Find
  | All
  | FindOne (objID : ObjectID)
  | InsertOne (document : Employee)
  | UpdateOne (objId : ObjectID) (update : Update)
  | DeleteOne (objId : ObjectID)
deriving DecidableEq, Repr

/-- The database as the handlers see it: the documents of the `employee` collection,
the schedule of imposed failures (one flag per call, `true` = the call fails, an
exhausted schedule means no failure), the driver's identifier counter, and the log of
calls made so far. -/
structure Db where
  docs : List Document
  faults : List Bool
  counter : Nat
  log : List Op
deriving DecidableEq, Repr

/-- Records a call and takes its imposed outcome from the schedule. -/
def Db.call (db : Db) (op : Op) : Bool × Db :=
  (db.faults.headD false, { db with faults := db.faults.tail, log := db.log ++ [op] })

/-- Modelled from the spec: `findAll`, first half (`collection.Find` with an empty filter):
opens a cursor over every stored document, or fails. -/
def Db.Find (db : Db) : Option (List Document) × Db :=
  let (fault, db1) := db.call Op.Find
  if fault then (none, db1) else (some db1.docs, db1)

/-- Modelled from the spec: `findAll`, second half (`cursor.All`): decodes every document
of the cursor, or fails. -/
def Db.All (cursor : List Document) (db : Db) : Option (List Employee) × Db :=
  let (fault, db1) := db.call Op.All
  if fault then (none, db1) else (some (cursor.map Document.decode), db1)

/-- The first document stored under the given `ObjectID`, if there is one. -/
def findDoc (objID : ObjectID) (docs : List Document) : Option Document :=
  docs.find? (fun d => d._id == BsonId.oid objID)

/-- Modelled from the spec: `findById` (`collection.FindOne(...).Decode`): the first document
whose `_id` is the given `ObjectID`, decoded; fails when there is none or the call fails. -/
def Db.FindOne (objID : ObjectID) (db : Db) : Option Employee × Db :=
  let (fault, db1) := db.call (Op.FindOne objID)
  if fault then (none, db1)
  else ((findDoc objID db1.docs).map Document.decode, db1)

/-- The `_id` a marshalled `Employee` is stored under: absent from the document when `Id`
is empty, so the driver generates one from its counter; the string itself otherwise. -/
def Db.idFor (db : Db) (e : Employee) : BsonId :=
  if e.Id = "" then BsonId.oid ⟨db.counter⟩ else BsonId.str e.Id

/-- Modelled from the spec: `insertOne` (`collection.InsertOne`): adds the document; fails,
storing nothing, when the call fails or a document with the same `_id` exists. -/
def Db.InsertOne (document : Employee) (db : Db) : Bool × Db :=
  let (fault, db1) := db.call (Op.InsertOne document)
  if fault then (false, db1)
  else
    let key := db1.idFor document
    if db1.docs.any (fun d => d._id == key) then (false, db1)
    else
      (true, { db1 with
        docs := db1.docs ++ [⟨key, document.Name, document.Age, document.Salary⟩]
        counter := if document.Id = "" then db1.counter + 1 else db1.counter })

/-- Sets the three fields of the first document with the given `_id`. -/
def setFirst (objId : ObjectID) (u : Update) : List Document → List Document
  | [] => []
  | d :: ds =>
    if d._id == BsonId.oid objId then { d with name := u.name, age := u.age, salary := u.salary } :: ds
    else d :: setFirst objId u ds

/-- Modelled from the spec: `updateOne` (`collection.UpdateOne` with `$set`): sets the fields
of the matching document; succeeds also when no document matches. -/
def Db.UpdateOne (objId : ObjectID) (update : Update) (db : Db) : Bool × Db :=
  let (fault, db1) := db.call (Op.UpdateOne objId update)
  if fault then (false, db1)
  else (true, { db1 with docs := setFirst objId update db1.docs })

/-- Removes the first document with the given `_id`. -/
def removeFirst (objId : ObjectID) : List Document → List Document
  | [] => []
  | d :: ds => if d._id == BsonId.oid objId then ds else d :: removeFirst objId ds

/-- Modelled from the spec: `deleteOne` (`collection.DeleteOne`): removes the matching
document; succeeds also when no document matches. -/
def Db.DeleteOne (objId : ObjectID) (db : Db) : Bool × Db :=
  let (fault, db1) := db.call (Op.DeleteOne objId)
  if fault then (false, db1)
  else (true, { db1 with docs := removeFirst objId db1.docs })

/-- The database keeps `_id` unique. -/
def Db.WF (db : Db) : Prop := (db.docs.map Document._id).Nodup

/-- The next `n` calls to the collection are not made to fail from outside. -/
def Db.reliable (db : Db) (n : Nat) : Bool := (db.faults.take n).all (fun b => !b)

/-! ## Requests and responses -/

/-- The request body as `c.BodyParser` reads it: not decodable into an `Employee`, or an
object in which each of the four keys is present with a value or absent.  `BodyParser`
chooses the decoder by content type: a JSON body holds finite numbers only, a form or XML
body is read with `strconv.ParseFloat` and may also hold `NaN`, `Inf` and `-Inf`. -/
inductive Body where
  | malformed
  | object (id : Option String) (name : Option String) (age : Option Float64)
      (salary : Option Float64)
deriving DecidableEq, Repr

/-- The request context: the `:id` path parameter and the body. -/
structure Ctx where
  id : String
  body : Body
deriving DecidableEq, Repr

/-- `c.BodyParser(&out)`: an error for an undecodable body; otherwise every key present in
the body overwrites its field and every other field keeps the value it had. -/
def Ctx.BodyParser (c : Ctx) (out : Employee) : Option Employee :=
  match c.body with
  | .malformed => none
  | .object id name age salary =>
    some { Id := id.getD out.Id
           Name := name.getD out.Name
           Age := age.getD out.Age
           Salary := salary.getD out.Salary }

/-- A value stored under a key of a `fiber.Map`. -/
inductive Value where
  | str (s : String)
  | employee (e : Employee)
deriving DecidableEq, Repr

/-- What a handler hands to `SendString` or `JSON`. -/
inductive Payload where
  | text (s : String)
  | map (m : List (String × Value))
  | employee (e : Employee)
  | employees (es : List Employee)
deriving DecidableEq, Repr

/-- Status code and payload of a response. -/
structure Response where
  status : Nat
  body : Payload
deriving DecidableEq, Repr

def StatusOK : Nat := 200
def StatusCreated : Nat := 201
def StatusBadRequest : Nat := 400
def StatusNotFound : Nat := 404
def StatusInternalServerError : Nat := 500

/-- The value `json.Marshal` refuses in a value of a `fiber.Map`, if any. -/
def Value.jsonError : Value → Option String
  | .str _ => none
  | .employee e => e.jsonError

/-- The value `json.Marshal` refuses in a payload, if any: the first one met.  The maps the
handlers build hold at most one employee, so the order of their keys is immaterial. -/
def Payload.jsonError : Payload → Option String
  | .text _ => none
  | .map m => m.findSome? (fun kv => kv.2.jsonError)
  | .employee e => e.jsonError
  | .employees es => es.findSome? Employee.jsonError

/-- Fiber's `DefaultErrorHandler`, which `fiber.New()` installs: an error returned by a
handler (other than a `*fiber.Error`) is answered with status 500 and the error text as a
`text/plain` body. -/
def DefaultErrorHandler (err : String) : Response :=
  ⟨StatusInternalServerError, .text err⟩

/-- The response of a handler that ends in `return c.Status(status).JSON(data)`: when the
encoder accepts `data` the response has that status and payload; when it refuses, `JSON`
returns the encoder's error, the handler returns it, and the framework answers through
`DefaultErrorHandler`. -/
def JSON (status : Nat) (data : Payload) : Response :=
  match data.jsonError with
  | none => ⟨status, data⟩
  | some v => DefaultErrorHandler ("json: unsupported value: " ++ v)

/-- The shape `c.Status(code).JSON(fiber.Map{"error": msg})`. -/
def errorResponse (status : Nat) (msg : String) : Response :=
  ⟨status, .map [("error", .str msg)]⟩

/-- The shape `c.Status(code).JSON(fiber.Map{"message": msg})`. -/
def messageResponse (status : Nat) (msg : String) : Response :=
  ⟨status, .map [("message", .str msg)]⟩

/-! ## Handlers -/

/-- Handler of `GET /`. -/
def getRoot (_c : Ctx) (db : Db) : Response × Db :=
  (⟨StatusOK, .text "Hello"⟩, db)

/-- Handler of `GET /employees`. -/
def getEmployees (_c : Ctx) (db : Db) : Response × Db :=
  match db.Find with
  | (none, db1) => (errorResponse StatusBadRequest "error finding employee", db1)
  | (some data, db1) =>
    match Db.All data db1 with
    | (none, db2) => (errorResponse StatusBadRequest "error finding employee", db2)
    | (some employee, db2) => (JSON StatusOK (.employees employee), db2)

/-- Handler of `GET /employee/:id`. -/
def getEmployee (c : Ctx) (db : Db) : Response × Db :=
  let id := c.id
  match ObjectIDFromHex id with
  | none => (errorResponse StatusBadRequest "Invalid id", db)
  | some objID =>
    match db.FindOne objID with
    | (none, db1) => (errorResponse StatusNotFound "employee not found", db1)
    | (some employee, db1) => (JSON StatusOK (.employee employee), db1)

/-- Handler of `POST /employee`. -/
def postEmployee (c : Ctx) (db : Db) : Response × Db :=
  match c.BodyParser Employee.zero with
  | none => (errorResponse StatusBadRequest "Error parsing employee", db)
  | some employee =>
    match db.InsertOne employee with
    | (false, db1) => (errorResponse StatusInternalServerError "error creating employee", db1)
    | (true, db1) =>
      (JSON StatusCreated
          (.map [("message", .str "employee created"), ("data", .employee employee)]),
        db1)

/-- Lines 163-171 of the update handler: the three conditional assignments to the local
`updateEmployee`. -/
def mergeIntoUpdate (updateEmployee currentEmployee : Employee) : Employee :=
  let u1 := if updateEmployee.Name != "" then { updateEmployee with Name := currentEmployee.Name }
            else updateEmployee
  let u2 := if u1.Age.neZero then { u1 with Age := currentEmployee.Age } else u1
  let u3 := if u2.Salary.neZero then { u2 with Salary := currentEmployee.Salary } else u2
  u3

/-- Lines 172-178 of the update handler: the `$set` document.  It is built from
`currentEmployee`; `updateEmployee` does not occur in it. -/
def buildUpdate (_updateEmployee currentEmployee : Employee) : Update :=
  { name := currentEmployee.Name, age := currentEmployee.Age, salary := currentEmployee.Salary }

/-- Handler of `PUT /employee/:id`. -/
def putEmployee (c : Ctx) (db : Db) : Response × Db :=
  let id := c.id
  match c.BodyParser Employee.zero with
  | none => (errorResponse StatusBadRequest "Error parsing employee", db)
  | some updateEmployee =>
    match ObjectIDFromHex id with
    | none => (errorResponse StatusBadRequest "Invalid id", db)
    | some objId =>
      match db.FindOne objId with
      | (none, db1) => (errorResponse StatusNotFound "employee not found", db1)
      | (some currentEmployee, db1) =>
        let updateEmployee := mergeIntoUpdate updateEmployee currentEmployee
        let update := buildUpdate updateEmployee currentEmployee
        match db1.UpdateOne objId update with
        | (false, db2) =>
          (errorResponse StatusInternalServerError "error updating employee", db2)
        | (true, db2) => (messageResponse StatusOK "employee updated", db2)

/-- Handler of `DELETE /employee/:id`. -/
def deleteEmployee (c : Ctx) (db : Db) : Response × Db :=
  let id := c.id
  match ObjectIDFromHex id with
  | none => (errorResponse StatusBadRequest "Invalid id", db)
  | some objId =>
    match db.DeleteOne objId with
    | (false, db1) => (errorResponse StatusInternalServerError "error deleting employee", db1)
    | (true, db1) => (messageResponse StatusOK "employee deleted", db1)

/-- The routes registered in `main`. -/
inductive Route where
  | root
  | list
  | get
  | create
  | update
  | delete
deriving DecidableEq, Repr

/-- Dispatch of a request to the handler registered for its route. -/
def handle : Route → Ctx → Db → Response × Db
  | .root => getRoot
  | .list => getEmployees
  | .get => getEmployee
  | .create => postEmployee
  | .update => putEmployee
  | .delete => deleteEmployee

/-- The `float64` 36. -/
def age36 : Float64 := ⟨0x4042000000000000⟩

/-- The `float64` 1000. -/
def salary1000 : Float64 := ⟨0x408F400000000000⟩

def adaHex : String := "65f0a1b2c3d4e5f601234567"

def adaOid : ObjectID := ⟨0x65f0a1b2c3d4e5f601234567⟩

def adaDoc : Document := ⟨.oid adaOid, "Ada", age36, salary1000⟩

def ada : Employee := ⟨adaHex, "Ada", age36, salary1000⟩

/-- An empty collection; no call fails. -/
def dbEmpty : Db := ⟨[], [], 0, []⟩

/-- A collection holding Ada; no call fails. -/
def dbAda : Db := ⟨[adaDoc], [], 0, []⟩

/-- A collection holding Ada; the first call succeeds, the second fails. -/
def dbAdaSecondFails : Db := ⟨[adaDoc], [false, true], 0, []⟩

/-- A collection holding Ada; the first call fails. -/
def dbAdaFirstFails : Db := ⟨[adaDoc], [true], 0, []⟩

/-- `PUT /employee/65f0a1b2c3d4e5f601234567` with body `{"name":"Bob"}`. -/
def putBob : Ctx := ⟨adaHex, .object none (some "Bob") none none⟩

/-- `POST /employee` with body `{"name":"Bob","age":36,"salary":1000}`. -/
def postBob : Ctx := ⟨"", .object none (some "Bob") (some age36) (some salary1000)⟩

/-- `POST /employee` with body `{"id":"chosen-by-client","name":"Bob","age":36,"salary":1000}`. -/
def postBobWithId : Ctx :=
  ⟨"", .object (some "chosen-by-client") (some "Bob") (some age36) (some salary1000)⟩

/-- The `float64` NaN (the quiet NaN `strconv.ParseFloat` returns for `NaN`). -/
def nan : Float64 := ⟨0x7FF8000000000001⟩

/-- `POST /employee` with the form body `name=Nan&age=NaN&salary=1000`. -/
def postNaN : Ctx := ⟨"", .object none (some "Nan") (some nan) (some salary1000)⟩

/-- An empty collection whose driver will generate `adaOid` next; no call fails. -/
def dbFresh : Db := ⟨[], [], adaOid.val, []⟩

/-- The database after `postNaN` on `dbFresh`: the document with the NaN age is stored
under `adaOid`. -/
def dbNaN : Db :=
  ⟨[⟨.oid adaOid, "Nan", nan, salary1000⟩], [], adaOid.val + 1,
    [Op.InsertOne ⟨"", "Nan", nan, salary1000⟩]⟩

/-- A request whose body is not decodable and whose path parameter is not an identifier. -/
def badRequest : Ctx := ⟨"not-a-hex-id", .malformed⟩

/-- A request for Ada's identifier, without a usable body. -/
def adaRequest : Ctx := ⟨adaHex, .malformed⟩

/-! ## Facts about the encoding of responses -/

theorem JSON_ok (status : Nat) (data : Payload) (h : data.jsonError = none) :
    JSON status data = ⟨status, data⟩ := by
  simp only [JSON, h]

theorem JSON_refused (status : Nat) (data : Payload) (v : String)
    (h : data.jsonError = some v) :
    JSON status data = ⟨500, .text ("json: unsupported value: " ++ v)⟩ := by
  simp only [JSON, h, DefaultErrorHandler, StatusInternalServerError]

/-- The error and message answers are what `JSON` gives for their maps, which always encode. -/
theorem errorResponse_eq_JSON (status : Nat) (msg : String) :
    errorResponse status msg = JSON status (.map [("error", .str msg)]) := rfl

theorem messageResponse_eq_JSON (status : Nat) (msg : String) :
    messageResponse status msg = JSON status (.map [("message", .str msg)]) := rfl

theorem created_jsonError (e : Employee) :
    (Payload.map [("message", .str "employee created"), ("data", .employee e)]).jsonError =
      e.jsonError := by
  cases h : e.jsonError <;> simp [Payload.jsonError, Value.jsonError, h]

theorem Float64.unsupported_mem (x : Float64) (v : String) (h : x.unsupported = some v) :
    v ∈ ["NaN", "+Inf", "-Inf"] := by
  unfold Float64.unsupported at h
  split_ifs at h <;> simp_all

theorem Employee.jsonError_mem (e : Employee) (v : String) (h : e.jsonError = some v) :
    v ∈ ["NaN", "+Inf", "-Inf"] := by
  unfold Employee.jsonError at h
  cases ha : e.Age.unsupported with
  | none => rw [ha] at h; exact Float64.unsupported_mem _ v h
  | some w =>
    rw [ha] at h
    simp only [Option.some.injEq] at h
    subst h
    exact Float64.unsupported_mem _ w ha

theorem employees_jsonError_none (es : List Employee)
    (h : ∀ e ∈ es, e.jsonError = none) : (Payload.employees es).jsonError = none := by
  simp only [Payload.jsonError, List.findSome?_eq_none_iff]
  exact h

/-! ## Facts about the collection operations -/

theorem FindOne_docs (o : ObjectID) (db : Db) : (db.FindOne o).2.docs = db.docs := by
  unfold Db.FindOne Db.call
  cases db.faults.headD false <;> rfl

theorem FindOne_log (o : ObjectID) (db : Db) :
    (db.FindOne o).2.log = db.log ++ [Op.FindOne o] := by
  unfold Db.FindOne Db.call
  cases db.faults.headD false <;> rfl

/-- A successful lookup returns the decoding of the first document stored under the id. -/
theorem FindOne_some (o : ObjectID) (db : Db) (cur : Employee)
    (h : (db.FindOne o).1 = some cur) :
    ∃ d, findDoc o db.docs = some d ∧ cur = d.decode := by
  unfold Db.FindOne Db.call at h
  cases hf : db.faults.headD false
  · simp only [hf] at h
    simp at h
    obtain ⟨d, hd, rfl⟩ := h
    exact ⟨d, hd, rfl⟩
  · simp only [hf] at h
    simp at h

/-- Writing back the fields a document already has changes nothing. -/
theorem setFirst_same (o : ObjectID) (docs : List Document) (d : Document)
    (h : findDoc o docs = some d) :
    setFirst o ⟨d.name, d.age, d.salary⟩ docs = docs := by
  unfold findDoc at h
  induction docs with
  | nil => simp at h
  | cons x xs ih =>
    rw [List.find?_cons] at h
    cases hx : (x._id == BsonId.oid o)
    · rw [hx] at h
      simp only [setFirst, hx]
      rw [ih h]
      simp
    · rw [hx] at h
      simp only [Option.some.injEq] at h
      subst h
      simp [setFirst, hx]

theorem UpdateOne_log (o : ObjectID) (u : Update) (db : Db) :
    (db.UpdateOne o u).2.log = db.log ++ [Op.UpdateOne o u] := by
  unfold Db.UpdateOne Db.call
  cases db.faults.headD false <;> rfl

/-! ## The branches of the update handler -/

theorem putEmployee_parse (c : Ctx) (db : Db) (hb : c.BodyParser Employee.zero = none) :
    putEmployee c db = (errorResponse 400 "Error parsing employee", db) := by
  simp [putEmployee, hb, StatusBadRequest]

theorem putEmployee_invalid (c : Ctx) (db : Db) (u : Employee)
    (hb : c.BodyParser Employee.zero = some u) (ho : ObjectIDFromHex c.id = none) :
    putEmployee c db = (errorResponse 400 "Invalid id", db) := by
  simp [putEmployee, hb, ho, StatusBadRequest]

theorem putEmployee_absent (c : Ctx) (db : Db) (u : Employee) (o : ObjectID)
    (hb : c.BodyParser Employee.zero = some u) (ho : ObjectIDFromHex c.id = some o)
    (hf : (db.FindOne o).1 = none) :
    putEmployee c db = (errorResponse 404 "employee not found", (db.FindOne o).2) := by
  rcases hfo : db.FindOne o with ⟨r, db1⟩
  rw [hfo] at hf
  simp only at hf
  subst hf
  simp [putEmployee, hb, ho, hfo, StatusNotFound]

theorem putEmployee_found (c : Ctx) (db : Db) (u cur : Employee) (o : ObjectID)
    (hb : c.BodyParser Employee.zero = some u) (ho : ObjectIDFromHex c.id = some o)
    (hf : (db.FindOne o).1 = some cur) :
    putEmployee c db =
      (if ((db.FindOne o).2.UpdateOne o ⟨cur.Name, cur.Age, cur.Salary⟩).1
        then messageResponse 200 "employee updated"
        else errorResponse 500 "error updating employee",
       ((db.FindOne o).2.UpdateOne o ⟨cur.Name, cur.Age, cur.Salary⟩).2) := by
  rcases hfo : db.FindOne o with ⟨r, db1⟩
  rw [hfo] at hf
  simp only at hf
  subst hf
  rcases hu : db1.UpdateOne o ⟨cur.Name, cur.Age, cur.Salary⟩ with ⟨ok, db2⟩
  cases ok <;>
    simp [putEmployee, hb, ho, hfo, buildUpdate, hu, StatusOK, StatusInternalServerError]

/-- The update handler leaves the stored documents as they were, on every path. -/
theorem putEmployee_docs (c : Ctx) (db : Db) : (putEmployee c db).2.docs = db.docs := by
  cases hb : c.BodyParser Employee.zero with
  | none => rw [putEmployee_parse c db hb]
  | some u =>
    cases ho : ObjectIDFromHex c.id with
    | none => rw [putEmployee_invalid c db u hb ho]
    | some o =>
      cases hf : (db.FindOne o).1 with
      | none => rw [putEmployee_absent c db u o hb ho hf]; exact FindOne_docs o db
      | some cur =>
        rw [putEmployee_found c db u cur o hb ho hf]
        obtain ⟨d, hd, rfl⟩ := FindOne_some o db cur hf
        simp only [Db.UpdateOne, Db.call]
        cases ((db.FindOne o).2.faults.headD false)
        · simp only [Bool.false_eq_true, if_false, FindOne_docs]
          exact setFirst_same o db.docs d hd
        · simp only [if_true, FindOne_docs]

/-! ## PUT /employee/:id -/

/-- C1, evaluated at the request of scenario 6: Ada is stored with age 36 and salary 1000,
the body is `{"name":"Bob"}` (a non-empty name), the id is valid, the record is found and
the write succeeds with HTTP 200; the name persisted afterwards is still "Ada", not the
body's "Bob". -/
theorem putEmployee_body_name_not_applied :
    putBob.BodyParser Employee.zero = some ⟨"", "Bob", Float64.zero, Float64.zero⟩ ∧
    ObjectIDFromHex putBob.id = some adaOid ∧
    (putEmployee putBob dbAda).1 = messageResponse 200 "employee updated" ∧
    (putEmployee putBob dbAda).2.log =
      [Op.FindOne adaOid, Op.UpdateOne adaOid ⟨"Ada", age36, salary1000⟩] ∧
    (putEmployee putBob dbAda).2.docs = [⟨.oid adaOid, "Ada", age36, salary1000⟩] := by
  decide

/-- C2 as stated fails when the write fails: the body decodes, the id is valid and the
lookup returns the stored record, yet the response is HTTP 500, not HTTP 200. -/
theorem putEmployee_write_failure_is_500 :
    putBob.BodyParser Employee.zero = some ⟨"", "Bob", Float64.zero, Float64.zero⟩ ∧
    ObjectIDFromHex putBob.id = some adaOid ∧
    (dbAdaSecondFails.FindOne adaOid).1 = some ada ∧
    (putEmployee putBob dbAdaSecondFails).1 = errorResponse 500 "error updating employee" := by
  decide

/-- C2, amended: for every decodable body, valid id and record returned by the lookup, the
handler issues exactly one update, which sets name, age and salary to the values just
loaded; the stored documents are the same before and after; the response is HTTP 200
"employee updated" when that write succeeds and HTTP 500 "error updating employee" when it
fails. -/
theorem putEmployee_persists_current (c : Ctx) (db : Db) (u cur : Employee) (o : ObjectID)
    (hb : c.BodyParser Employee.zero = some u) (ho : ObjectIDFromHex c.id = some o)
    (hf : (db.FindOne o).1 = some cur) :
    (putEmployee c db).2.log =
      db.log ++ [Op.FindOne o, Op.UpdateOne o ⟨cur.Name, cur.Age, cur.Salary⟩] ∧
    (putEmployee c db).2.docs = db.docs ∧
    (putEmployee c db).1 =
      (if ((db.FindOne o).2.UpdateOne o ⟨cur.Name, cur.Age, cur.Salary⟩).1
        then messageResponse 200 "employee updated"
        else errorResponse 500 "error updating employee") := by
  refine ⟨?_, putEmployee_docs c db, ?_⟩
  · rw [putEmployee_found c db u cur o hb ho hf]
    simp [UpdateOne_log, FindOne_log]
  · rw [putEmployee_found c db u cur o hb ho hf]

/-- Witness of C2, amended: Ada is stored, the body is `{"name":"Bob"}`, the write succeeds. -/
theorem putEmployee_persists_current_witness :
    (putEmployee putBob dbAda).2.log =
      dbAda.log ++ [Op.FindOne adaOid, Op.UpdateOne adaOid ⟨ada.Name, ada.Age, ada.Salary⟩] ∧
    (putEmployee putBob dbAda).2.docs = dbAda.docs ∧
    (putEmployee putBob dbAda).1 =
      (if ((dbAda.FindOne adaOid).2.UpdateOne adaOid ⟨ada.Name, ada.Age, ada.Salary⟩).1
        then messageResponse 200 "employee updated"
        else errorResponse 500 "error updating employee") :=
  putEmployee_persists_current putBob dbAda ⟨"", "Bob", Float64.zero, Float64.zero⟩ ada adaOid
    (by decide) (by decide) (by decide)

/-- C3 as stated never happens: there is no request, database and stored record for which a
successful PUT whose body omits a field leaves that field of the persisted record at the
zero value instead of the previously stored value. -/
theorem putEmployee_never_zeroes_omitted_field :
    ¬ ∃ (c : Ctx) (db : Db) (o : ObjectID) (id name : Option String)
        (age salary : Option Float64) (d d2 : Document),
        c.body = .object id name age salary ∧ ObjectIDFromHex c.id = some o ∧
        findDoc o db.docs = some d ∧
        (putEmployee c db).1 = messageResponse 200 "employee updated" ∧
        findDoc o (putEmployee c db).2.docs = some d2 ∧
        ((name = none ∧ d2.name = "" ∧ d2.name ≠ d.name) ∨
         (age = none ∧ d2.age = Float64.zero ∧ d2.age ≠ d.age) ∨
         (salary = none ∧ d2.salary = Float64.zero ∧ d2.salary ≠ d.salary)) := by
  rintro ⟨c, db, o, id, name, age, salary, d, d2, -, -, hd, -, hd2, h⟩
  rw [putEmployee_docs, hd] at hd2
  cases hd2
  rcases h with ⟨-, -, h⟩ | ⟨-, -, h⟩ | ⟨-, -, h⟩ <;> exact h rfl

/-- C3, amended: in the handler's local `updateEmployee` a body field that is provided
(non-empty) is overwritten by the stored value and a body field that is absent stays at the
zero value, but that local record is never written: the `$set` document holds the loaded
values, and the record stored under the id is the same before and after the PUT. -/
theorem putEmployee_discards_body (c : Ctx) (db : Db) (o : ObjectID) (cur : Employee)
    (id name : Option String) (age salary : Option Float64)
    (hbody : c.body = .object id name age salary)
    (ho : ObjectIDFromHex c.id = some o) (hf : (db.FindOne o).1 = some cur) :
    ∃ u, c.BodyParser Employee.zero = some u ∧
      (u.Name ≠ "" → (mergeIntoUpdate u cur).Name = cur.Name) ∧
      (u.Age.neZero = true → (mergeIntoUpdate u cur).Age = cur.Age) ∧
      (u.Salary.neZero = true → (mergeIntoUpdate u cur).Salary = cur.Salary) ∧
      (name = none → (mergeIntoUpdate u cur).Name = "") ∧
      (age = none → (mergeIntoUpdate u cur).Age = Float64.zero) ∧
      (salary = none → (mergeIntoUpdate u cur).Salary = Float64.zero) ∧
      buildUpdate (mergeIntoUpdate u cur) cur = ⟨cur.Name, cur.Age, cur.Salary⟩ ∧
      (putEmployee c db).2.log =
        db.log ++ [Op.FindOne o, Op.UpdateOne o (buildUpdate (mergeIntoUpdate u cur) cur)] ∧
      ∃ d, findDoc o db.docs = some d ∧ d.decode = cur ∧
        findDoc o (putEmployee c db).2.docs = some d := by
  obtain ⟨d, hd, hcur⟩ := FindOne_some o db cur hf
  have hb : c.BodyParser Employee.zero = some ⟨id.getD "", name.getD "",
      age.getD Float64.zero, salary.getD Float64.zero⟩ := by
    simp only [Ctx.BodyParser, hbody, Employee.zero]
  refine ⟨_, hb, ?_, ?_, ?_, ?_, ?_, ?_, rfl, ?_,
    d, hd, hcur.symm, by rw [putEmployee_docs]; exact hd⟩
  rotate_left 6
  · rw [putEmployee_found c db _ cur o hb ho hf]
    simp [UpdateOne_log, FindOne_log, buildUpdate]
  · intro h
    simp only [mergeIntoUpdate]
    split_ifs <;> simp_all
  · intro h
    simp only [mergeIntoUpdate]
    split_ifs <;> simp_all
  · intro h
    simp only [mergeIntoUpdate]
    split_ifs <;> simp_all
  · intro h
    subst h
    simp only [mergeIntoUpdate, Employee.zero, Option.getD]
    split_ifs <;> simp_all
  · intro h
    subst h
    simp only [mergeIntoUpdate, Employee.zero, Option.getD]
    split_ifs <;> simp_all [Float64.neZero, Float64.zero]
  · intro h
    subst h
    simp only [mergeIntoUpdate, Employee.zero, Option.getD]
    split_ifs <;> simp_all [Float64.neZero, Float64.zero]

/-- Witness of C3, amended: Ada is stored and the body is `{"name":"Bob"}`. -/
theorem putEmployee_discards_body_witness :
    ∃ u, putBob.BodyParser Employee.zero = some u ∧
      (u.Name ≠ "" → (mergeIntoUpdate u ada).Name = ada.Name) ∧
      (u.Age.neZero = true → (mergeIntoUpdate u ada).Age = ada.Age) ∧
      (u.Salary.neZero = true → (mergeIntoUpdate u ada).Salary = ada.Salary) ∧
      ((some "Bob" : Option String) = none → (mergeIntoUpdate u ada).Name = "") ∧
      ((none : Option Float64) = none → (mergeIntoUpdate u ada).Age = Float64.zero) ∧
      ((none : Option Float64) = none → (mergeIntoUpdate u ada).Salary = Float64.zero) ∧
      buildUpdate (mergeIntoUpdate u ada) ada = ⟨ada.Name, ada.Age, ada.Salary⟩ ∧
      (putEmployee putBob dbAda).2.log =
        dbAda.log ++
          [Op.FindOne adaOid, Op.UpdateOne adaOid (buildUpdate (mergeIntoUpdate u ada) ada)] ∧
      ∃ d, findDoc adaOid dbAda.docs = some d ∧ d.decode = ada ∧
        findDoc adaOid (putEmployee putBob dbAda).2.docs = some d :=
  putEmployee_discards_body putBob dbAda adaOid ada none (some "Bob") none none rfl
    (by decide) (by decide)

/-- C10: the update handler parses the body first, then the id, then looks the record up.
An undecodable body gives HTTP 400 "Error parsing employee" whatever the id, and a decodable
body with an invalid id gives HTTP 400 "Invalid id", both without any call to the
collection; a failed lookup gives HTTP 404 after the lookup alone, no update being issued;
the stored documents are unchanged in all three cases. -/
theorem putEmployee_checks_before_write (c : Ctx) (db : Db) :
    (c.BodyParser Employee.zero = none →
      putEmployee c db = (errorResponse 400 "Error parsing employee", db)) ∧
    (∀ u, c.BodyParser Employee.zero = some u → ObjectIDFromHex c.id = none →
      putEmployee c db = (errorResponse 400 "Invalid id", db)) ∧
    (∀ u o, c.BodyParser Employee.zero = some u → ObjectIDFromHex c.id = some o →
      (db.FindOne o).1 = none →
      (putEmployee c db).1 = errorResponse 404 "employee not found" ∧
      (putEmployee c db).2.log = db.log ++ [Op.FindOne o] ∧
      (putEmployee c db).2.docs = db.docs) := by
  refine ⟨putEmployee_parse c db, putEmployee_invalid c db, ?_⟩
  intro u o hb ho hf
  rw [putEmployee_absent c db u o hb ho hf]
  exact ⟨rfl, FindOne_log o db, FindOne_docs o db⟩

/-- Witness of C10: an undecodable body with an invalid id, a decodable body with an invalid
id, and a lookup of an identifier that is not stored. -/
theorem putEmployee_checks_before_write_witness :
    putEmployee badRequest dbAda = (errorResponse 400 "Error parsing employee", dbAda) ∧
    putEmployee ⟨"not-a-hex-id", .object none (some "Bob") none none⟩ dbAda =
      (errorResponse 400 "Invalid id", dbAda) ∧
    ((putEmployee putBob dbEmpty).1 = errorResponse 404 "employee not found" ∧
      (putEmployee putBob dbEmpty).2.log = dbEmpty.log ++ [Op.FindOne adaOid] ∧
      (putEmployee putBob dbEmpty).2.docs = dbEmpty.docs) :=
  ⟨(putEmployee_checks_before_write badRequest dbAda).1 (by decide),
   (putEmployee_checks_before_write ⟨"not-a-hex-id", .object none (some "Bob") none none⟩
      dbAda).2.1 ⟨"", "Bob", Float64.zero, Float64.zero⟩ (by decide) (by decide),
   (putEmployee_checks_before_write putBob dbEmpty).2.2
      ⟨"", "Bob", Float64.zero, Float64.zero⟩ adaOid (by decide) (by decide) (by decide)⟩

/-! ## GET /employee/:id -/

/-- C4: when the path parameter does not parse as an identifier, the handler answers
HTTP 400 "Invalid id" and returns the database exactly as it received it: no call is
logged and nothing stored changes. -/
theorem getEmployee_invalid_id (c : Ctx) (db : Db) (h : ObjectIDFromHex c.id = none) :
    getEmployee c db = (errorResponse 400 "Invalid id", db) ∧
    (getEmployee c db).2.log = db.log ∧ (getEmployee c db).2.docs = db.docs := by
  simp [getEmployee, h, StatusBadRequest]

/-- Witness of C4: scenario 3, `GET /employee/not-a-hex-id`. -/
theorem getEmployee_invalid_id_witness :
    ObjectIDFromHex badRequest.id = none ∧
    getEmployee badRequest dbAda = (errorResponse 400 "Invalid id", dbAda) ∧
    (getEmployee badRequest dbAda).2.log = dbAda.log ∧
    (getEmployee badRequest dbAda).2.docs = dbAda.docs :=
  ⟨by decide, getEmployee_invalid_id badRequest dbAda (by decide)⟩

/-! ## POST /employee -/

theorem InsertOne_log (e : Employee) (db : Db) :
    (db.InsertOne e).2.log = db.log ++ [Op.InsertOne e] := by
  unfold Db.InsertOne Db.call
  cases db.faults.headD false
  · simp only [Bool.false_eq_true, if_false]
    split_ifs <;> rfl
  · rfl

theorem InsertOne_faults (e : Employee) (db : Db) :
    (db.InsertOne e).2.faults = db.faults.tail := by
  unfold Db.InsertOne Db.call
  cases db.faults.headD false
  · simp only [Bool.false_eq_true, if_false]
    split_ifs <;> rfl
  · rfl

/-- A successful insert appends the marshalled document and nothing else. -/
theorem InsertOne_ok (e : Employee) (db : Db) (h : (db.InsertOne e).1 = true) :
    (db.InsertOne e).2.docs = db.docs ++ [⟨db.idFor e, e.Name, e.Age, e.Salary⟩] ∧
    (db.docs.any (fun d => d._id == db.idFor e)) = false := by
  unfold Db.InsertOne Db.call at h ⊢
  cases hf : db.faults.headD false
  · simp only [hf, Bool.false_eq_true, if_false] at h ⊢
    by_cases hany : (db.docs.any fun d => d._id == db.idFor e) = true
    · have h2 := h
      simp only [Db.idFor] at h2 hany
      rw [if_pos hany] at h2
      exact absurd h2 (by simp)
    · have hany2 := hany
      simp only [Db.idFor] at hany2 ⊢
      rw [if_neg hany2]
      exact ⟨rfl, by simpa [Db.idFor] using hany⟩
  · simp only [hf, if_true] at h
    exact absurd h (by simp)

theorem postEmployee_parse (c : Ctx) (db : Db) (hb : c.BodyParser Employee.zero = none) :
    postEmployee c db = (errorResponse 400 "Error parsing employee", db) := by
  simp [postEmployee, hb, StatusBadRequest]

theorem postEmployee_decoded (c : Ctx) (db : Db) (e : Employee)
    (hb : c.BodyParser Employee.zero = some e) :
    postEmployee c db =
      (if (db.InsertOne e).1
        then JSON 201 (.map [("message", .str "employee created"), ("data", .employee e)])
        else errorResponse 500 "error creating employee",
       (db.InsertOne e).2) := by
  rcases hi : db.InsertOne e with ⟨ok, db1⟩
  cases ok <;> simp [postEmployee, hb, hi, StatusCreated, StatusInternalServerError]

/-- C6 as stated fails: the form body `name=Nan&age=NaN&salary=1000` decodes and the insert
succeeds (the document is stored), yet the response is not HTTP 201: the encoder refuses the
NaN, the handler returns that error and the framework answers HTTP 500 with a text body. -/
theorem postEmployee_nan_is_not_201 :
    postNaN.BodyParser Employee.zero = some ⟨"", "Nan", nan, salary1000⟩ ∧
    (dbEmpty.InsertOne ⟨"", "Nan", nan, salary1000⟩).1 = true ∧
    (postEmployee postNaN dbEmpty).2.docs = [⟨.oid ⟨0⟩, "Nan", nan, salary1000⟩] ∧
    (postEmployee postNaN dbEmpty).1 = ⟨500, .text "json: unsupported value: NaN"⟩ := by
  decide

/-- C6, amended: an undecodable body gives HTTP 400 "Error parsing employee" with no call to
the collection; a decoded body whose insert fails gives HTTP 500 "error creating employee";
a decoded body whose insert succeeds gives, when its age and salary are finite, HTTP 201
with message "employee created" and, as data, exactly the decoded employee, and, when its
age or salary is NaN or infinite, HTTP 500 with the text "json: unsupported value: " followed
by that value, the document being stored all the same; the decoded employee has the fields
of the body where present and the zero value (empty string, 0) where absent. -/
theorem postEmployee_outcome (c : Ctx) (db : Db) :
    (c.BodyParser Employee.zero = none →
      postEmployee c db = (errorResponse 400 "Error parsing employee", db)) ∧
    (∀ e, c.BodyParser Employee.zero = some e → (db.InsertOne e).1 = false →
      (postEmployee c db).1 = errorResponse 500 "error creating employee") ∧
    (∀ e, c.BodyParser Employee.zero = some e → (db.InsertOne e).1 = true →
      e.jsonError = none →
      (postEmployee c db).1 =
        ⟨201, .map [("message", .str "employee created"), ("data", .employee e)]⟩) ∧
    (∀ e v, c.BodyParser Employee.zero = some e → (db.InsertOne e).1 = true →
      e.jsonError = some v →
      v ∈ ["NaN", "+Inf", "-Inf"] ∧
      (postEmployee c db).1 = ⟨500, .text ("json: unsupported value: " ++ v)⟩ ∧
      (postEmployee c db).2.docs = db.docs ++ [⟨db.idFor e, e.Name, e.Age, e.Salary⟩]) ∧
    (∀ id name age salary, c.body = .object id name age salary →
      c.BodyParser Employee.zero =
        some ⟨id.getD "", name.getD "", age.getD Float64.zero, salary.getD Float64.zero⟩) := by
  refine ⟨postEmployee_parse c db, ?_, ?_, ?_, ?_⟩
  · intro e hb hi
    rw [postEmployee_decoded c db e hb, hi]
    rfl
  · intro e hb hi hfin
    rw [postEmployee_decoded c db e hb, hi]
    exact JSON_ok _ _ (by rw [created_jsonError]; exact hfin)
  · intro e v hb hi hv
    rw [postEmployee_decoded c db e hb, hi]
    exact ⟨e.jsonError_mem v hv, JSON_refused _ _ v (by rw [created_jsonError]; exact hv),
      (InsertOne_ok e db hi).1⟩
  · intro id name age salary hbody
    simp only [Ctx.BodyParser, hbody, Employee.zero]

/-- Witness of C6, amended: an undecodable body; a decodable body whose insert is made to
fail; the body of scenario 2; the form body with a NaN age; a body with only a name. -/
theorem postEmployee_outcome_witness :
    postEmployee badRequest dbAda = (errorResponse 400 "Error parsing employee", dbAda) ∧
    (postEmployee postBob dbAdaFirstFails).1 = errorResponse 500 "error creating employee" ∧
    (postEmployee postBob dbEmpty).1 =
      ⟨201, .map [("message", .str "employee created"),
        ("data", .employee ⟨"", "Bob", age36, salary1000⟩)]⟩ ∧
    ("NaN" ∈ ["NaN", "+Inf", "-Inf"] ∧
      (postEmployee postNaN dbEmpty).1 = ⟨500, .text ("json: unsupported value: " ++ "NaN")⟩ ∧
      (postEmployee postNaN dbEmpty).2.docs =
        dbEmpty.docs ++ [⟨dbEmpty.idFor ⟨"", "Nan", nan, salary1000⟩,
          (⟨"", "Nan", nan, salary1000⟩ : Employee).Name,
          (⟨"", "Nan", nan, salary1000⟩ : Employee).Age,
          (⟨"", "Nan", nan, salary1000⟩ : Employee).Salary⟩]) ∧
    putBob.BodyParser Employee.zero = some ⟨"", "Bob", Float64.zero, Float64.zero⟩ :=
  ⟨(postEmployee_outcome badRequest dbAda).1 (by decide),
   (postEmployee_outcome postBob dbAdaFirstFails).2.1 ⟨"", "Bob", age36, salary1000⟩
      (by decide) (by decide),
   (postEmployee_outcome postBob dbEmpty).2.2.1 ⟨"", "Bob", age36, salary1000⟩
      (by decide) (by decide) (by decide),
   (postEmployee_outcome postNaN dbEmpty).2.2.2.1 ⟨"", "Nan", nan, salary1000⟩ "NaN"
      (by decide) (by decide) (by decide),
   (postEmployee_outcome putBob dbEmpty).2.2.2.2 none (some "Bob") none none rfl⟩

/-- C5 as stated fails: two bodies that differ only in their id field, posted to the same
empty collection, hand different documents to `InsertOne`, are stored under different
`_id` values (the second under the client's string) and get different responses. -/
theorem postEmployee_id_not_ignored :
    (postEmployee postBob dbEmpty).2.log = [Op.InsertOne ⟨"", "Bob", age36, salary1000⟩] ∧
    (postEmployee postBobWithId dbEmpty).2.log =
      [Op.InsertOne ⟨"chosen-by-client", "Bob", age36, salary1000⟩] ∧
    (postEmployee postBob dbEmpty).2.docs = [⟨.oid ⟨0⟩, "Bob", age36, salary1000⟩] ∧
    (postEmployee postBobWithId dbEmpty).2.docs =
      [⟨.str "chosen-by-client", "Bob", age36, salary1000⟩] ∧
    (postEmployee postBob dbEmpty).1 =
      ⟨201, .map [("message", .str "employee created"),
        ("data", .employee ⟨"", "Bob", age36, salary1000⟩)]⟩ ∧
    (postEmployee postBobWithId dbEmpty).1 =
      ⟨201, .map [("message", .str "employee created"),
        ("data", .employee ⟨"chosen-by-client", "Bob", age36, salary1000⟩)]⟩ := by
  decide

/-- C5, amended: the id field of the body is passed through.  For two decodable bodies that
differ only in their id field, each document handed to `InsertOne` is the decoded body with
its own id, so the two agree on name, age and salary; a document that is stored is stored
under the body's id when that is non-empty and under a driver-generated one when it is
empty; when the two ids decode to the same string the two requests behave identically; and
when `InsertOne` has the same outcome for both, the two responses have the same status. -/
theorem postEmployee_id_passthrough (db : Db) (path1 path2 : String) (id1 id2 name : Option String)
    (age salary : Option Float64) :
    (postEmployee ⟨path1, .object id1 name age salary⟩ db).2.log =
      db.log ++ [Op.InsertOne
        ⟨id1.getD "", name.getD "", age.getD Float64.zero, salary.getD Float64.zero⟩] ∧
    (postEmployee ⟨path2, .object id2 name age salary⟩ db).2.log =
      db.log ++ [Op.InsertOne
        ⟨id2.getD "", name.getD "", age.getD Float64.zero, salary.getD Float64.zero⟩] ∧
    ((postEmployee ⟨path1, .object id1 name age salary⟩ db).1.status = 201 →
      (postEmployee ⟨path1, .object id1 name age salary⟩ db).2.docs =
        db.docs ++ [⟨if id1.getD "" = "" then .oid ⟨db.counter⟩ else .str (id1.getD ""),
          name.getD "", age.getD Float64.zero, salary.getD Float64.zero⟩] ∧
      (postEmployee ⟨path1, .object id1 name age salary⟩ db).1.body =
        .map [("message", .str "employee created"),
          ("data", .employee
            ⟨id1.getD "", name.getD "", age.getD Float64.zero, salary.getD Float64.zero⟩)]) ∧
    (id1.getD "" = id2.getD "" →
      postEmployee ⟨path1, .object id1 name age salary⟩ db =
        postEmployee ⟨path2, .object id2 name age salary⟩ db) ∧
    ((db.InsertOne
        ⟨id1.getD "", name.getD "", age.getD Float64.zero, salary.getD Float64.zero⟩).1 =
      (db.InsertOne
        ⟨id2.getD "", name.getD "", age.getD Float64.zero, salary.getD Float64.zero⟩).1 →
      (postEmployee ⟨path1, .object id1 name age salary⟩ db).1.status =
        (postEmployee ⟨path2, .object id2 name age salary⟩ db).1.status) := by
  have hb : ∀ (path : String) (id : Option String),
      (⟨path, .object id name age salary⟩ : Ctx).BodyParser Employee.zero =
        some ⟨id.getD "", name.getD "", age.getD Float64.zero, salary.getD Float64.zero⟩ :=
    fun _ _ => rfl
  refine ⟨?_, ?_, ?_, ?_, ?_⟩
  · rw [postEmployee_decoded _ db _ (hb path1 id1)]
    exact InsertOne_log _ db
  · rw [postEmployee_decoded _ db _ (hb path2 id2)]
    exact InsertOne_log _ db
  · rw [postEmployee_decoded _ db _ (hb path1 id1)]
    intro h
    cases hi : (db.InsertOne
        ⟨id1.getD "", name.getD "", age.getD Float64.zero, salary.getD Float64.zero⟩).1
    · rw [hi] at h
      simp [errorResponse] at h
    · rw [hi] at h
      refine ⟨(InsertOne_ok _ db hi).1, ?_⟩
      simp only [if_true] at h ⊢
      cases hj : (Payload.map [("message", .str "employee created"), ("data", .employee
          ⟨id1.getD "", name.getD "", age.getD Float64.zero,
            salary.getD Float64.zero⟩)]).jsonError with
      | none => rw [JSON_ok _ _ hj]
      | some v =>
        rw [JSON_refused _ _ v hj] at h
        simp at h
  · intro h
    rw [postEmployee_decoded _ db _ (hb path1 id1), postEmployee_decoded _ db _ (hb path2 id2), h]
  · intro h
    rw [postEmployee_decoded _ db _ (hb path1 id1), postEmployee_decoded _ db _ (hb path2 id2), h]
    have hj : ∀ id : Option String,
        (Payload.map [("message", .str "employee created"), ("data", .employee
          ⟨id.getD "", name.getD "", age.getD Float64.zero,
            salary.getD Float64.zero⟩)]).jsonError =
        (⟨"", "", age.getD Float64.zero, salary.getD Float64.zero⟩ : Employee).jsonError :=
      fun id => by rw [created_jsonError]; rfl
    split_ifs
    · cases hv : (⟨"", "", age.getD Float64.zero, salary.getD Float64.zero⟩ :
          Employee).jsonError with
      | none => rw [JSON_ok _ _ ((hj id1).trans hv), JSON_ok _ _ ((hj id2).trans hv)]
      | some v =>
        rw [JSON_refused _ _ v ((hj id1).trans hv), JSON_refused _ _ v ((hj id2).trans hv)]
    · rfl

/-- Witness of C5, amended: the two bodies of the counterexample, on the empty collection. -/
theorem postEmployee_id_passthrough_witness :
    ((postEmployee postBobWithId dbEmpty).2.docs =
      dbEmpty.docs ++
        [⟨if (some "chosen-by-client" : Option String).getD "" = "" then .oid ⟨dbEmpty.counter⟩
            else .str ((some "chosen-by-client" : Option String).getD ""),
          (some "Bob" : Option String).getD "", (some age36).getD Float64.zero,
          (some salary1000).getD Float64.zero⟩] ∧
      (postEmployee postBobWithId dbEmpty).1.body =
        .map [("message", .str "employee created"),
          ("data", .employee
            ⟨(some "chosen-by-client" : Option String).getD "",
              (some "Bob" : Option String).getD "", (some age36).getD Float64.zero,
              (some salary1000).getD Float64.zero⟩)]) ∧
    (postEmployee postBobWithId dbEmpty).1.status = (postEmployee postBob dbEmpty).1.status :=
  ⟨(postEmployee_id_passthrough dbEmpty "" "" (some "chosen-by-client") none (some "Bob")
      (some age36) (some salary1000)).2.2.1 (by decide),
   (postEmployee_id_passthrough dbEmpty "" "" (some "chosen-by-client") none (some "Bob")
      (some age36) (some salary1000)).2.2.2.2 (by decide)⟩

/-! ## The responses each handler can give -/

theorem getEmployee_invalid (c : Ctx) (db : Db) (ho : ObjectIDFromHex c.id = none) :
    getEmployee c db = (errorResponse 400 "Invalid id", db) := by
  simp [getEmployee, ho, StatusBadRequest]

theorem getEmployee_valid (c : Ctx) (db : Db) (o : ObjectID)
    (ho : ObjectIDFromHex c.id = some o) :
    getEmployee c db =
      (match (db.FindOne o).1 with
        | none => errorResponse 404 "employee not found"
        | some e => JSON 200 (.employee e),
       (db.FindOne o).2) := by
  rcases hfo : db.FindOne o with ⟨res, db1⟩
  cases res <;> simp [getEmployee, ho, hfo, StatusOK, StatusNotFound]

theorem deleteEmployee_invalid (c : Ctx) (db : Db) (ho : ObjectIDFromHex c.id = none) :
    deleteEmployee c db = (errorResponse 400 "Invalid id", db) := by
  simp [deleteEmployee, ho, StatusBadRequest]

theorem deleteEmployee_valid (c : Ctx) (db : Db) (o : ObjectID)
    (ho : ObjectIDFromHex c.id = some o) :
    deleteEmployee c db =
      (if (db.DeleteOne o).1 then messageResponse 200 "employee deleted"
        else errorResponse 500 "error deleting employee",
       (db.DeleteOne o).2) := by
  rcases hd : db.DeleteOne o with ⟨ok, db1⟩
  cases ok <;> simp [deleteEmployee, ho, hd, StatusOK, StatusInternalServerError]

/-- A list query that the collection answers hands every stored document, decoded, to
`JSON`. -/
theorem getEmployees_reliable (c : Ctx) (db : Db) (h : db.reliable 2 = true) :
    (getEmployees c db).1 = JSON 200 (.employees (db.docs.map Document.decode)) := by
  obtain ⟨docs, faults, counter, log⟩ := db
  match faults, h with
  | [], _ => rfl
  | [false], _ => rfl
  | false :: false :: _, _ => rfl
  | [true], h => exact absurd h (by simp [Db.reliable])
  | false :: true :: _, h => exact absurd h (by simp [Db.reliable])
  | true :: _ :: _, h => exact absurd h (by simp [Db.reliable])

/-- C8 as stated fails: on the collection that holds the document stored by the form body
`name=Nan&age=NaN&salary=1000`, the `POST` of scenario 2 decodes and answers 201, the
collection answers the list query, and yet `GET /employees` answers HTTP 500 with a text
body instead of 200 with a list. -/
theorem create_then_list_fails_at_nan :
    (postEmployee postNaN dbFresh).2 = dbNaN ∧
    postBob.BodyParser Employee.zero = some ⟨"", "Bob", age36, salary1000⟩ ∧
    (postEmployee postBob dbNaN).1.status = 201 ∧
    (postEmployee postBob dbNaN).2.reliable 2 = true ∧
    (getEmployees badRequest (postEmployee postBob dbNaN).2).1 =
      ⟨500, .text "json: unsupported value: NaN"⟩ := by
  decide

/-- C8, amended: for every store state in which the age and salary of every stored document
are finite, after `POST /employee` has answered 201, a `GET /employees` that the collection
answers returns 200 with the list of every stored document, and that list contains an
employee with the name, age and salary of the posted body. -/
theorem create_then_list (c c2 : Ctx) (db : Db) (e : Employee)
    (hb : c.BodyParser Employee.zero = some e)
    (hfin : ∀ d ∈ db.docs, d.decode.jsonError = none)
    (h201 : (postEmployee c db).1.status = 201)
    (hok : (postEmployee c db).2.reliable 2 = true) :
    ∃ es, (getEmployees c2 (postEmployee c db).2).1 = ⟨200, .employees es⟩ ∧
      es = (postEmployee c db).2.docs.map Document.decode ∧
      ∃ x ∈ es, x.Name = e.Name ∧ x.Age = e.Age ∧ x.Salary = e.Salary := by
  have hi : (db.InsertOne e).1 = true := by
    rw [postEmployee_decoded c db e hb] at h201
    cases hi : (db.InsertOne e).1
    · rw [hi] at h201
      simp [errorResponse] at h201
    · rfl
  have he : e.jsonError = none := by
    rw [postEmployee_decoded c db e hb, hi] at h201
    cases hj : e.jsonError with
    | none => rfl
    | some v =>
      rw [if_pos rfl, JSON_refused _ _ v (by rw [created_jsonError]; exact hj)] at h201
      simp at h201
  have hdocs : (postEmployee c db).2.docs =
      db.docs ++ [⟨db.idFor e, e.Name, e.Age, e.Salary⟩] := by
    rw [postEmployee_decoded c db e hb]
    exact (InsertOne_ok e db hi).1
  refine ⟨_, ?_, rfl, ?_⟩
  · rw [getEmployees_reliable c2 _ hok]
    refine JSON_ok _ _ (employees_jsonError_none _ ?_)
    intro x hx
    rw [hdocs, List.map_append, List.mem_append] at hx
    rcases hx with hx | hx
    · obtain ⟨d, hd, rfl⟩ := List.mem_map.mp hx
      exact hfin d hd
    · simp only [List.map_cons, List.map_nil, List.mem_singleton] at hx
      subst hx
      exact he
  · refine ⟨Document.decode ⟨db.idFor e, e.Name, e.Age, e.Salary⟩, ?_, rfl, rfl, rfl⟩
    rw [hdocs, List.map_append]
    exact List.mem_append_right _ (List.mem_singleton.mpr rfl)

/-- Witness of C8, amended: scenario 2, `POST` of Bob to a collection that holds Ada, then
the list. -/
theorem create_then_list_witness :
    ∃ es, (getEmployees badRequest (postEmployee postBob dbAda).2).1 = ⟨200, .employees es⟩ ∧
      es = (postEmployee postBob dbAda).2.docs.map Document.decode ∧
      ∃ x ∈ es, x.Name = (⟨"", "Bob", age36, salary1000⟩ : Employee).Name ∧
        x.Age = (⟨"", "Bob", age36, salary1000⟩ : Employee).Age ∧
        x.Salary = (⟨"", "Bob", age36, salary1000⟩ : Employee).Salary :=
  create_then_list postBob badRequest dbAda ⟨"", "Bob", age36, salary1000⟩
    (by decide) (by decide) (by decide) (by decide)

theorem findDoc_eq_none (o : ObjectID) (docs : List Document) :
    findDoc o docs = none ↔ BsonId.oid o ∉ docs.map Document._id := by
  unfold findDoc
  simp [List.find?_eq_none]

/-- Removing the first document of an id that is stored once leaves none under that id. -/
theorem findDoc_removeFirst (o : ObjectID) (docs : List Document)
    (h : (docs.map Document._id).Nodup) : findDoc o (removeFirst o docs) = none := by
  induction docs with
  | nil => rfl
  | cons x xs ih =>
    rw [List.map_cons, List.nodup_cons] at h
    cases hx : (x._id == BsonId.oid o)
    · simp only [removeFirst, hx, Bool.false_eq_true, if_false]
      unfold findDoc
      rw [List.find?_cons, hx]
      exact ih h.2
    · simp only [removeFirst, hx, if_true]
      rw [findDoc_eq_none]
      have hxo : x._id = BsonId.oid o := by simpa using hx
      rw [← hxo]
      exact h.1

theorem removeFirst_absent (o : ObjectID) (docs : List Document)
    (h : findDoc o docs = none) : removeFirst o docs = docs := by
  induction docs with
  | nil => rfl
  | cons x xs ih =>
    unfold findDoc at h
    rw [List.find?_cons] at h
    cases hx : (x._id == BsonId.oid o)
    · rw [hx] at h
      simp only [removeFirst, hx, Bool.false_eq_true, if_false]
      rw [ih h]
    · rw [hx] at h
      exact absurd h (by simp)

theorem DeleteOne_ok (o : ObjectID) (db : Db) (h : (db.DeleteOne o).1 = true) :
    (db.DeleteOne o).2.docs = removeFirst o db.docs := by
  unfold Db.DeleteOne Db.call at h ⊢
  cases hf : db.faults.headD false
  · rfl
  · simp only [hf, if_true] at h
    exact absurd h (by simp)

theorem DeleteOne_reliable (o : ObjectID) (db : Db) (h : db.reliable 1 = true) :
    (db.DeleteOne o).1 = true := by
  obtain ⟨docs, faults, counter, log⟩ := db
  match faults, h with
  | [], _ => rfl
  | false :: _, _ => rfl
  | true :: _, h => exact absurd h (by simp [Db.reliable])

theorem FindOne_absent (o : ObjectID) (db : Db) (h : findDoc o db.docs = none) :
    (db.FindOne o).1 = none := by
  unfold Db.FindOne Db.call
  cases db.faults.headD false
  · simp only [Bool.false_eq_true, if_false, h]
    rfl
  · rfl

/-- C9: in a collection whose `_id` values are unique, whenever `DELETE /employee/:id` with
a valid id has answered 200 "employee deleted", a following `GET /employee/:id` with the same
id answers 404 "employee not found"; and `DELETE` with a valid id under which nothing is
stored also answers 200 "employee deleted" when the collection reports success, leaving the
stored documents as they were. -/
theorem delete_then_get (c c2 : Ctx) (db : Db) (o : ObjectID) (hwf : db.WF)
    (ho : ObjectIDFromHex c.id = some o) (hid : c2.id = c.id) :
    ((deleteEmployee c db).1 = messageResponse 200 "employee deleted" →
      (getEmployee c2 (deleteEmployee c db).2).1 = errorResponse 404 "employee not found") ∧
    (findDoc o db.docs = none → db.reliable 1 = true →
      (deleteEmployee c db).1 = messageResponse 200 "employee deleted" ∧
      (deleteEmployee c db).2.docs = db.docs) := by
  have ho2 : ObjectIDFromHex c2.id = some o := by rw [hid]; exact ho
  constructor
  · intro h
    rw [getEmployee_valid c2 _ o ho2]
    rw [deleteEmployee_valid c db o ho] at h ⊢
    cases hd : (db.DeleteOne o).1
    · rw [hd] at h
      simp [errorResponse, messageResponse] at h
    · have habs : findDoc o (db.DeleteOne o).2.docs = none := by
        rw [DeleteOne_ok o db hd]
        exact findDoc_removeFirst o db.docs hwf
      simp only [FindOne_absent o _ habs]
  · intro habs hrel
    rw [deleteEmployee_valid c db o ho]
    have hd := DeleteOne_reliable o db hrel
    refine ⟨by rw [hd]; rfl, ?_⟩
    simp only [DeleteOne_ok o db hd]
    exact removeFirst_absent o db.docs habs

/-- Witness of C9: scenario 5 on the collection that holds Ada, and a delete of Ada's id on
the empty collection. -/
theorem delete_then_get_witness :
    (getEmployee adaRequest (deleteEmployee adaRequest dbAda).2).1 =
      errorResponse 404 "employee not found" ∧
    ((deleteEmployee adaRequest dbEmpty).1 = messageResponse 200 "employee deleted" ∧
      (deleteEmployee adaRequest dbEmpty).2.docs = dbEmpty.docs) :=
  ⟨(delete_then_get adaRequest adaRequest dbAda adaOid (by unfold Db.WF; decide) (by decide)
      rfl).1 (by decide),
   (delete_then_get adaRequest adaRequest dbEmpty adaOid (by unfold Db.WF; decide) (by decide)
      rfl).2 (by decide) (by decide)⟩

/-! ## The uniqueness of `_id` is kept by every handler -/

theorem setFirst_ids (o : ObjectID) (u : Update) (docs : List Document) :
    (setFirst o u docs).map Document._id = docs.map Document._id := by
  induction docs with
  | nil => rfl
  | cons x xs ih =>
    cases hx : (x._id == BsonId.oid o)
    · simp only [setFirst, hx, Bool.false_eq_true, if_false, List.map_cons, ih]
    · simp only [setFirst, hx, if_true, List.map_cons]

theorem removeFirst_ids (o : ObjectID) (docs : List Document) :
    ((removeFirst o docs).map Document._id).Sublist (docs.map Document._id) := by
  induction docs with
  | nil => exact List.Sublist.refl _
  | cons x xs ih =>
    cases hx : (x._id == BsonId.oid o)
    · simp only [removeFirst, hx, Bool.false_eq_true, if_false, List.map_cons]
      exact ih.cons₂ _
    · simp only [removeFirst, hx, if_true, List.map_cons]
      exact List.sublist_cons_self _ _

theorem InsertOne_WF (e : Employee) (db : Db) (h : db.WF) : (db.InsertOne e).2.WF := by
  cases hi : (db.InsertOne e).1
  · have hdocs : (db.InsertOne e).2.docs = db.docs := by
      unfold Db.InsertOne Db.call at hi ⊢
      cases hf : db.faults.headD false
      · simp only [hf, Bool.false_eq_true, if_false] at hi ⊢
        split_ifs at hi ⊢
        rfl
      · rfl
    unfold Db.WF
    rw [hdocs]
    exact h
  · obtain ⟨hdocs, hnew⟩ := InsertOne_ok e db hi
    unfold Db.WF at h ⊢
    rw [hdocs, List.map_append, List.map_cons, List.map_nil]
    refine List.Nodup.append h (List.nodup_singleton _) ?_
    intro k hk hk2
    rw [List.mem_singleton] at hk2
    subst hk2
    obtain ⟨d, hd, hdk⟩ := List.mem_map.mp hk
    have : (db.docs.any fun d => d._id == db.idFor e) = true :=
      List.any_eq_true.mpr ⟨d, hd, by simp [hdk]⟩
    rw [hnew] at this
    exact absurd this (by simp)

theorem DeleteOne_WF (o : ObjectID) (db : Db) (h : db.WF) : (db.DeleteOne o).2.WF := by
  unfold Db.WF at h ⊢
  unfold Db.DeleteOne Db.call
  cases db.faults.headD false
  · exact h.sublist (removeFirst_ids o db.docs)
  · exact h

theorem getEmployees_docs (c : Ctx) (db : Db) : (getEmployees c db).2.docs = db.docs := by
  obtain ⟨docs, faults, counter, log⟩ := db
  match faults with
  | [] => rfl
  | [false] => rfl
  | [true] => rfl
  | false :: false :: _ => rfl
  | false :: true :: _ => rfl
  | true :: _ :: _ => rfl

/-- Every handler keeps the `_id` values of the collection unique. -/
theorem handle_WF (r : Route) (c : Ctx) (db : Db) (h : db.WF) : (handle r c db).2.WF := by
  cases r with
  | root => exact h
  | list =>
    unfold Db.WF
    simp only [handle, getEmployees_docs]
    exact h
  | get =>
    unfold Db.WF
    simp only [handle]
    cases ho : ObjectIDFromHex c.id with
    | none => rw [getEmployee_invalid c db ho]; exact h
    | some o => rw [getEmployee_valid c db o ho]; simp only [FindOne_docs]; exact h
  | create =>
    simp only [handle]
    cases hb : c.BodyParser Employee.zero with
    | none => rw [postEmployee_parse c db hb]; exact h
    | some e => rw [postEmployee_decoded c db e hb]; exact InsertOne_WF e db h
  | update =>
    unfold Db.WF
    simp only [handle, putEmployee_docs]
    exact h
  | delete =>
    simp only [handle]
    cases ho : ObjectIDFromHex c.id with
    | none => rw [deleteEmployee_invalid c db ho]; exact h
    | some o => rw [deleteEmployee_valid c db o ho]; exact DeleteOne_WF o db h

/-! ## Identifiers written by the driver are read back by `ObjectIDFromHex` -/

theorem hexVal_hexChar (d : Nat) (h : d < 16) : hexVal (hexChar d) = some d := by
  interval_cases d <;> decide

theorem hexVals_append (a b : List Char) (x y : List Nat)
    (ha : hexVals a = some x) (hb : hexVals b = some y) :
    hexVals (a ++ b) = some (x ++ y) := by
  induction a generalizing x with
  | nil =>
    simp only [hexVals, Option.some.injEq] at ha
    subst ha
    simpa using hb
  | cons c cs ih =>
    simp only [hexVals] at ha
    cases hc : hexVal c with
    | none => simp [hc] at ha
    | some d =>
      cases hcs : hexVals cs with
      | none => simp [hc, hcs] at ha
      | some ds =>
        simp only [hc, hcs, Option.some.injEq] at ha
        subst ha
        have ih2 := ih ds hcs
        show hexVals (c :: (cs ++ b)) = some (d :: (ds ++ y))
        simp only [hexVals, hc, ih2]

theorem hexVals_hexDigits (k n : Nat) :
    ∃ ds, hexVals (hexDigits k n) = some ds ∧ ds.length = k ∧
      ds.foldl (fun acc d => acc * 16 + d) 0 = n % 16 ^ k := by
  induction k generalizing n with
  | zero => exact ⟨[], rfl, rfl, by simp [Nat.mod_one]⟩
  | succ k ih =>
    obtain ⟨ds, h1, h2, h3⟩ := ih (n / 16)
    have hlast : hexVals [hexChar (n % 16)] = some [n % 16] := by
      simp only [hexVals, hexVal_hexChar (n % 16) (Nat.mod_lt _ (by decide))]
    refine ⟨ds ++ [n % 16], hexVals_append _ _ _ _ h1 hlast, by simp [h2], ?_⟩
    rw [List.foldl_append, h3, pow_succ', Nat.mod_mul]
    simp only [List.foldl_cons, List.foldl_nil]
    ring

/-- The hex form of a twelve-byte identifier parses back to that identifier. -/
theorem ObjectIDFromHex_Hex (o : ObjectID) (h : o.val < 2 ^ 96) :
    ObjectIDFromHex o.Hex = some o := by
  obtain ⟨ds, h1, h2, h3⟩ := hexVals_hexDigits 24 o.val
  have hlt : o.val < 16 ^ 24 := by
    have : (16 : Nat) ^ 24 = 2 ^ 96 := by norm_num
    rw [this]
    exact h
  simp only [ObjectIDFromHex, ObjectID.Hex, h1, h2, if_true, h3, Nat.mod_eq_of_lt hlt]

end Hrms
